import Mathlib

/-!
Verification development for the MainLayout component of the
react-image-annotate repository (src/src/MainLayout/index.js).

The development shallowly embeds the parts of the component that the
frozen claims talk about:

* the memoizing action binder `action` (source lines 62-79), including the
  cache key computation and the dispatched action record built by the
  bound callable;
* the regions prop supplied to the ImageCanvas (source lines 117-121),
  together with a model of the imported helper `getActiveImage` (not part
  of the available source, modelled from the specification, section 4.3)
  and of `useImpliedVideoRegions` (also not part of the available source,
  modelled from the specification, section 4.4);
* the `debugModeOn` flag and the DebugBox sidebar item (source lines 167
  and 237-239);
* the pointer refocus handler `refocusOnMouseEvent` (source lines 97-104);
* the overall control flow of the component body, which contains two
  sequential unconditional return statements (source lines 169-282 and
  284-385): a JavaScript function yields the value of the first executed
  return statement, so the body is modelled as an ordered list of return
  values of which the head is the result.

JavaScript objects are modelled as assignment sequences of key/value
pairs: assigning to an existing key updates the value in place (keeping
the key position), assigning a fresh key appends it.  A thrown TypeError
is modelled with `Except.error`.  Reference equality of the memoized
callables is modelled by giving every allocated callable a fresh numeric
identity.
-/

/-- Payload values that flow through the action binder.  Field values of a
call-time record argument are opaque payloads drawn from `V`; the binder
never inspects them.  String primitives appear only as the value of the
type field of an action. -/
inductive JSArg (V : Type) where
  | undef
  | str (s : String)
  | val (v : V)
  | obj (fields : List (String × V))
deriving DecidableEq, Repr

/-- A JavaScript object as an ordered sequence of own enumerable
properties. -/
abbrev Obj (V : Type) := List (String × JSArg V)

/-- Property assignment, `o[k] = v`: an existing key keeps its position and
gets the new value, a fresh key is appended at the end. -/
def objSet {V : Type} (o : Obj V) (k : String) (v : JSArg V) : Obj V :=
  if o.any (fun kv => kv.1 == k) then
    o.map (fun kv => if kv.1 == k then (k, v) else kv)
  else o ++ [(k, v)]

/-- Sequential property assignment of a list of entries into an object, in
order; this is the semantics of spreading an object literal into another
and of the accumulating reduce in the source. -/
def objAssignAll {V : Type} (o : Obj V) (entries : List (String × JSArg V)) : Obj V :=
  entries.foldl (fun acc kv => objSet acc kv.1 kv.2) o

/-- Own enumerable entries produced by spreading a value: spreading a plain
record yields its entries; spreading undefined or an opaque (non-string)
primitive yields nothing. -/
def spreadFields {V : Type} : JSArg V → List (String × JSArg V)
  | JSArg.obj fields => fields.map (fun kv => (kv.1, JSArg.val kv.2))
  | _ => []

/-- A memoized bound callable, source lines 68-76.  The numeric `id` is the
allocation identity of the closure: two callables are reference equal
exactly when their ids agree.  The closure captures the action type and the
declared parameter names. -/
structure ActionFn where
  id : Nat
  type : String
  params : List String
deriving DecidableEq, Repr

/-- The memoization table `memoizedActionFns.current` of source line 62,
together with the next free allocation identity. -/
structure ActionCache where
  table : List (String × ActionFn)
  nextId : Nat
deriving DecidableEq, Repr

/-- The empty cache a freshly mounted editor instance starts with. -/
def ActionCache.empty : ActionCache := { table := [], nextId := 0 }

/-- Cache key of source line 64: the template literal
type(params.join(",")). -/
def fnKey (type : String) (params : List String) : String :=
  type ++ "(" ++ String.intercalate "," params ++ ")"

/-- The action binder of source lines 63-79.  It computes the cache key,
returns the stored callable when one exists, and otherwise allocates a
fresh callable, stores it under the key and returns it. -/
def action (st : ActionCache) (type : String) (params : List String) :
    ActionFn × ActionCache :=
  let key := fnKey type params
  match st.table.find? (fun kv => kv.1 == key) with
  | some kv => (kv.2, st)
  | none =>
    let fn : ActionFn := { id := st.nextId, type := type, params := params }
    (fn, { table := st.table ++ [(key, fn)], nextId := st.nextId + 1 })

/-- Runs a sequence of binder calls against the cache, source-side this is
any interleaving of further `action(type, ...params)` calls during renders. -/
def runCalls (st : ActionCache) (calls : List (String × List String)) : ActionCache :=
  calls.foldl (fun acc c => (action acc c.1 c.2).2) st

/-- The action record dispatched when a bound callable is invoked with
positional arguments, source lines 68-76.  With a non-empty parameter list
the record is the literal containing the type followed by the spread of
the reduce-built accumulator assigning args[i] to params[i]; a missing
positional argument reads as undefined.  With an empty parameter list the
record is the literal containing the type followed by the spread of the
first call-time argument. -/
def dispatchedAction {V : Type} (fn : ActionFn) (args : List (JSArg V)) : Obj V :=
  if fn.params.length > 0 then
    let acc : Obj V :=
      objAssignAll []
        (fn.params.enum.map (fun pi => (pi.2, args.getD pi.1 JSArg.undef)))
    objAssignAll [(("type"), JSArg.str fn.type)] acc
  else
    objAssignAll [(("type"), JSArg.str fn.type)] (spreadFields (args.getD 0 JSArg.undef))

/-- Cache sanity: every stored callable was allocated before the next free
identity, and all stored callables have pairwise distinct identities.  The
empty cache satisfies this and every binder call preserves it. -/
def CacheWF (st : ActionCache) : Prop :=
  (∀ kv ∈ st.table, kv.2.id < st.nextId) ∧
    (st.table.map (fun kv => kv.2.id)).Nodup

/-- Modelled from the spec: a region (glossary section) is a user drawn
shape with an identity plus classification metadata.  The specification,
section 4.4, leaves the per-shape interpolation rule open and only asks
for linear interpolation of numeric coordinates with a per-region
non-interpolable escape hatch, so geometry is collapsed to one rational
coordinate and one flag. -/
structure Region where
  id : Nat
  x : ℚ
  interpolable : Bool
deriving DecidableEq, Repr

/-- Keyframes as a finite mapping from a numeric time key to the region
set authored at that instant; per the data model, section 3, keys are
unique and insertion order is irrelevant. -/
abbrev Keyframes := List (ℚ × List Region)

/-- Largest keyframe entry, by key, of a list (used for clamping and for
the earlier neighbour of an intermediate time). -/
def maxKeyEntry (kfs : Keyframes) : Option (ℚ × List Region) :=
  kfs.foldl
    (fun best kv =>
      match best with
      | none => some kv
      | some b => if b.1 < kv.1 then some kv else some b)
    none

/-- Smallest keyframe entry, by key, of a list (used for clamping and for
the later neighbour of an intermediate time). -/
def minKeyEntry (kfs : Keyframes) : Option (ℚ × List Region) :=
  kfs.foldl
    (fun best kv =>
      match best with
      | none => some kv
      | some b => if kv.1 < b.1 then some kv else some b)
    none

/-- Modelled from the spec: interpolation between two neighbouring
keyframes (section 4.4).  Only regions present in both keyframes by
identity survive; an interpolable region gets its coordinate interpolated
linearly in time between the two endpoint values, a non-interpolable
region snaps to the value of the earlier keyframe. -/
def interpBetween (k0 k1 : ℚ × List Region) (t : ℚ) : List Region :=
  k0.2.filterMap (fun r =>
    match k1.2.find? (fun r1 => r1.id == r.id) with
    | none => none
    | some r1 =>
      if r.interpolable then
        some { r with x := r.x + (r1.x - r.x) * (t - k0.1) / (k1.1 - k0.1) }
      else some r)

/-- Modelled from the spec: the helper `useImpliedVideoRegions` is imported
from ./use-implied-video-regions, which is not part of the available
source.  Section 4.4 of the specification fixes its contract: an exact
keyframe key match returns that region set unmodified; an empty mapping
yields the empty set; a time outside the authored range clamps to the
nearest keyframe; a time strictly between two keyframes interpolates as in
`interpBetween`. -/
def impliedRegions (kfs : Keyframes) (t : ℚ) : List Region :=
  match kfs.find? (fun kv => kv.1 == t) with
  | some kv => kv.2
  | none =>
    let before := kfs.filter (fun kv => kv.1 < t)
    let after := kfs.filter (fun kv => t < kv.1)
    match maxKeyEntry before, minKeyEntry after with
    | none, some k1 => k1.2
    | some k0, none => k0.2
    | some k0, some k1 => interpBetween k0 k1 t
    | none, none => []

/-- One entry of the images sequence of the annotation state; fields are
the ones this component reads (data model, section 3). -/
structure ImageEntry where
  src : String
  name : Option String
  regions : Option (List Region)
  frameTime : Option ℚ
  realSize : Option (ℚ × ℚ)
deriving DecidableEq, Repr

/-- The slice of MainLayoutState that the embedded computations read
(data model, section 3). -/
structure MainState where
  annotationType : String
  images : List ImageEntry
  selectedImage : Option String
  selectedImageFrameTime : Option ℚ
  videoSrc : Option String
  videoName : Option String
  videoDuration : Option ℚ
  currentVideoTime : ℚ
  videoPlaying : Bool
  keyframes : Keyframes
  lastAction : Option String
  fullScreen : Bool
  settingsOpen : Bool
deriving DecidableEq, Repr

/-- Modelled from the spec: `getActiveImage` is imported from
../Annotator/reducers/get-active-image, which is not part of the available
source.  Section 4.3 of the specification fixes its contract: in image
mode, scan images for the entry whose identity key equals selectedImage,
yielding its position and the entry, or absent results when nothing
matches; in video mode there is no index-addressed active image and the
active image is a synthetic view built from videoSrc, currentVideoTime and
videoName. -/
def getActiveImage (s : MainState) : Option Nat × Option ImageEntry :=
  if s.annotationType = "video" then
    (none,
      some
        { src := s.videoSrc.getD ""
          name := s.videoName
          regions := none
          frameTime := some s.currentVideoTime
          realSize := none })
  else
    match s.selectedImage with
    | none => (none, none)
    | some key =>
      match s.images.findIdx? (fun im => im.src == key) with
      | none => (none, none)
      | some i => (some i, s.images[i]?)

/-- A runtime fault of the original JavaScript, here only the TypeError
raised by reading a property of undefined. -/
inductive JSError where
  | typeError
deriving DecidableEq, Repr

/-- The regions prop supplied to the ImageCanvas, source lines 117-121:
in image mode it evaluates activeImage.regions with a fallback empty
array; reading .regions throws when no active image resolved.  Otherwise
it is the implied video region set of source line 95. -/
def regionsProp (s : MainState) : Except JSError (List Region) :=
  if s.annotationType = "image" then
    match (getActiveImage s).2 with
    | none => Except.error JSError.typeError
    | some img => Except.ok (img.regions.getD [])
  else
    Except.ok (impliedRegions s.keyframes s.currentVideoTime)

/-- The derived props of the canvas element built at source lines 106-165
that the claims mention; building the element evaluates every prop, so a
fault in the regions prop faults the whole construction. -/
structure CanvasProps where
  regions : List Region
  realSize : Option (ℚ × ℚ)
  imageSrc : Option String
  videoSrc : Option String
  videoTime : Option ℚ
  videoPlaying : Bool
deriving DecidableEq, Repr

/-- Builds the canvas props, source lines 106-165. -/
def canvasProps (s : MainState) : Except JSError CanvasProps := do
  let regions ← regionsProp s
  pure
    { regions := regions
      realSize := (getActiveImage s).2.bind (fun img => img.realSize)
      imageSrc := if s.annotationType = "image" then s.selectedImage else none
      videoSrc := if s.annotationType = "video" then s.videoSrc else none
      videoTime :=
        if s.annotationType = "image" then s.selectedImageFrameTime
        else some s.currentVideoTime
      videoPlaying := s.videoPlaying }

/-- The ambient browser environment the component reads: the persisted
local flag window.localStorage.$ANNOTATE_DEBUG_MODE, a string when set. -/
structure Env where
  annotateDebugMode : Option String
deriving DecidableEq, Repr

/-- JavaScript truthiness of a localStorage read: absent and the empty
string are falsy, every other string is truthy. -/
def localStorageTruthy (v : Option String) : Bool :=
  match v with
  | none => false
  | some s => !(s == "")

/-- Source line 167: Boolean(window.localStorage.$ANNOTATE_DEBUG_MODE and
state).  The state prop is a present object in this embedding and an
object is truthy, so the conjunction reduces to the truthiness of the
flag. -/
def debugModeOn (env : Env) (_s : MainState) : Bool :=
  localStorageTruthy env.annotateDebugMode

/-- The value handed to the state prop of the DebugBox at source line 238;
the component passes the boolean `debugModeOn` there, so the prop can hold
either a boolean or an actual state. -/
inductive DebugStateProp where
  | fromBool (b : Bool)
  | fromState (s : MainState)
deriving DecidableEq, Repr

/-- Props of the rendered DebugBox element, source line 238. -/
structure DebugBoxProps where
  stateValue : DebugStateProp
  lastAction : Option String
deriving DecidableEq, Repr

/-- The DebugBox slot of the right sidebar, source lines 237-239 combined
with the trailing filter(Boolean): present exactly when `debugModeOn` is
truthy, and then carrying state={debugModeOn} and
lastAction={state.lastAction}. -/
def debugBoxItem (env : Env) (s : MainState) : Option DebugBoxProps :=
  if debugModeOn env s then
    some { stateValue := DebugStateProp.fromBool (debugModeOn env s), lastAction := s.lastAction }
  else none

/-- The DOM facts the refocus handler reads: the interactive surface
container (innerContainerRef.current, absent before mount), the currently
focused element (document.activeElement, possibly null), and the DOM
containment relation.  Elements are identified by numbers. -/
structure FocusEnv where
  container : Option Nat
  activeElement : Option Nat
  contains : Nat → Nat → Bool

/-- Whether the surface contains the currently focused element, source
line 99; containment of a null active element is false. -/
def surfaceContainsActive (env : FocusEnv) : Bool :=
  match env.container, env.activeElement with
  | some c, some a => env.contains c a
  | _, _ => false

/-- The pointer refocus handler of source lines 97-104, returning the list
of elements focused, in call order: nothing without a mounted container,
nothing when the surface already contains the focused element, the
container followed by the event target when the target is inside the
surface, and nothing otherwise. -/
def refocusOnMouseEvent (env : FocusEnv) (target : Nat) : List Nat :=
  match env.container with
  | none => []
  | some c =>
    if surfaceContainsActive env then []
    else if env.contains c target then [c, target]
    else []

/-- The header items of the Workspace layout, source lines 183-194, after
filter(Boolean). -/
def headerItems (s : MainState) : List String :=
  ([some "Prev", some "Next",
    (if s.annotationType != "video" then none
     else if !s.videoPlaying then some "Play" else some "Pause"),
    some "Settings", some "Fullscreen", some "Save"]).reduceOption

/-- The Workspace based layout of the first return statement, source lines
169-282, restricted to the derived pieces the claims mention. -/
structure WorkspaceLayout where
  canvas : CanvasProps
  debugBox : Option DebugBoxProps
  hasKeyframeTimeline : Bool
  header : List String
deriving DecidableEq, Repr

/-- Builds the Workspace layout of the first return statement. -/
def workspaceLayout (env : Env) (s : MainState) (cv : CanvasProps) : WorkspaceLayout :=
  { canvas := cv
    debugBox := debugBoxItem env s
    hasKeyframeTimeline := s.annotationType == "video"
    header := headerItems s }

/-- The Fullscreen/HotkeyDiv layout of the second return statement, source
lines 284-385, restricted to the derived pieces the claims mention: the
Header title with its fallback, the nextVideoFrameHasRegions flag, the
attachment of the refocus handler, and the SettingsDialog open flag. -/
structure FullscreenLayout where
  title : Option String
  nextVideoFrameHasRegions : Bool
  isAVideoFrame : Bool
  refocusHandlerAttached : Bool
  canvas : Option CanvasProps
  settingsDialogOpen : Bool
deriving DecidableEq, Repr

/-- The nextVideoFrameHasRegions flag of source lines 313-315, as the
truthiness of !nextImage or nextImage.regions being a non-empty list. -/
def nextVideoFrameHasRegions (nextImage : Option ImageEntry) : Bool :=
  match nextImage with
  | none => true
  | some im => (im.regions.getD []).length > 0

/-- Builds the Fullscreen/HotkeyDiv layout of the second return statement,
source lines 284-385. -/
def fullscreenLayout (s : MainState) (cv : CanvasProps) : FullscreenLayout :=
  let resolved := getActiveImage s
  let nextImage : Option ImageEntry :=
    match resolved.1 with
    | none => none
    | some i => s.images[i + 1]?
  { title :=
      if s.annotationType = "image" then
        match resolved.2 with
        | some img => img.name
        | none => some "No Image Selected"
      else some (s.videoName.getD "")
    nextVideoFrameHasRegions := nextVideoFrameHasRegions nextImage
    isAVideoFrame :=
      match resolved.2 with
      | some img => img.frameTime.isSome
      | none => false
    refocusHandlerAttached := true
    canvas :=
      if s.annotationType = "image" ∧ s.selectedImage = none then none
      else some cv
    settingsDialogOpen := s.settingsOpen }

/-- A value produced by one of the two return statements of the component
body. -/
inductive Rendered where
  | workspace (w : WorkspaceLayout)
  | fullscreen (f : FullscreenLayout)
deriving DecidableEq, Repr

/-- The ordered return statements of the component body: the Workspace
layout at source line 169 followed by the Fullscreen layout at source
line 284. -/
def mainLayoutReturns (env : Env) (s : MainState) (cv : CanvasProps) : List Rendered :=
  [Rendered.workspace (workspaceLayout env s cv),
    Rendered.fullscreen (fullscreenLayout s cv)]

/-- The render result of MainLayout: building the canvas element may
fault; otherwise the function yields the value of the first return
statement it executes (head of the return list; none would be the
undefined result of a body with no reachable return). -/
def mainLayoutRender (env : Env) (s : MainState) : Except JSError (Option Rendered) :=
  (canvasProps s).map (fun cv => (mainLayoutReturns env s cv).head?)

/-- A concrete region used by the concrete evaluations below. -/
def sampleRegion0 : Region := { id := 0, x := 10, interpolable := true }

/-- A second concrete region with a different identity. -/
def sampleRegion1 : Region := { id := 1, x := 20, interpolable := true }

/-- A concrete image entry with source key a. -/
def imageEntryA : ImageEntry :=
  { src := "a", name := some "img-a", regions := some [sampleRegion0],
    frameTime := none, realSize := none }

/-- An image mode state whose selectedImage key matches no entry of
images: the Active-Selection Resolver yields an absent active image. -/
def unresolvedImageState : MainState :=
  { annotationType := "image"
    images := [imageEntryA]
    selectedImage := some "b"
    selectedImageFrameTime := none
    videoSrc := none
    videoName := none
    videoDuration := none
    currentVideoTime := 0
    videoPlaying := false
    keyframes := []
    lastAction := none
    fullScreen := false
    settingsOpen := false }

/-- A concrete video mode state with two keyframes and a last action. -/
def sampleVideoState : MainState :=
  { annotationType := "video"
    images := []
    selectedImage := none
    selectedImageFrameTime := none
    videoSrc := some "v.mp4"
    videoName := some "vid"
    videoDuration := some 2000
    currentVideoTime := 0
    videoPlaying := false
    keyframes := [(0, [sampleRegion0]), (1000, [sampleRegion1])]
    lastAction := some "MOUSE_MOVE"
    fullScreen := false
    settingsOpen := false }

/-- An environment with the persisted debug flag set. -/
def envDebugOn : Env := { annotateDebugMode := some "1" }

/-- An environment without the persisted debug flag. -/
def envDebugOff : Env := { annotateDebugMode := none }

/-- A concrete DOM for the refocus handler: the surface is element 0 and
contains element 3 (and itself); the focused element 5 is outside the
surface. -/
def sampleFocusEnv : FocusEnv :=
  { container := some 0
    activeElement := some 5
    contains := fun c x => c == 0 && (x == 0 || x == 3) }

/-- Assigning a fresh key appends the entry. -/
theorem objSet_not_mem {V : Type} {o : Obj V} {k : String}
    (h : k ∉ o.map Prod.fst) (v : JSArg V) : objSet o k v = o ++ [(k, v)] := by
  have hany : o.any (fun kv => kv.1 == k) = false := by
    rw [List.any_eq_false]
    intro kv hkv
    simp only [beq_iff_eq]
    intro hk
    exact h (hk ▸ List.mem_map_of_mem Prod.fst hkv)
  simp [objSet, hany]

/-- Sequentially assigning entries with pairwise distinct keys, none of
which occurs in the target object, appends them all in order. -/
theorem objAssignAll_append {V : Type} :
    ∀ (entries : List (String × JSArg V)) (o : Obj V),
      (entries.map Prod.fst).Nodup →
      (∀ k ∈ entries.map Prod.fst, k ∉ o.map Prod.fst) →
      objAssignAll o entries = o ++ entries := by
  intro entries
  induction entries with
  | nil => intro o _ _; simp [objAssignAll]
  | cons kv rest ih =>
    intro o hnd hdis
    simp only [List.map_cons, List.nodup_cons] at hnd
    have h1 : kv.1 ∉ o.map Prod.fst := hdis kv.1 (by simp)
    have step : objAssignAll o (kv :: rest) = objAssignAll (objSet o kv.1 kv.2) rest := by
      simp [objAssignAll]
    rw [step, objSet_not_mem h1]
    have hdis2 : ∀ k ∈ rest.map Prod.fst, k ∉ (o ++ [(kv.1, kv.2)]).map Prod.fst := by
      intro k hk
      simp only [List.map_append, List.mem_append, List.map_cons, List.map_nil,
        List.mem_singleton, not_or]
      refine ⟨hdis k (by simp [hk]), ?_⟩
      intro he
      exact hnd.1 (he ▸ hk)
    rw [ih (o ++ [(kv.1, kv.2)]) hnd.2 hdis2]
    simp

/-- The keys of the reduce-built entry list are exactly the declared
parameter names. -/
theorem keys_enum_map {V : Type} (ps : List String) (args : List (JSArg V)) :
    (ps.enum.map (fun pi => (pi.2, args.getD pi.1 JSArg.undef))).map Prod.fst = ps := by
  rw [List.map_map]
  have hcomp :
      (Prod.fst ∘ fun pi : Nat × String => (pi.2, args.getD pi.1 JSArg.undef)) = Prod.snd := rfl
  rw [hcomp, List.enum_map_snd]

/-- With a non-empty list of pairwise distinct parameter names, none of
them called type, the dispatched record is the type entry followed by one
entry per declared name holding the positional argument of its index (or
undefined past the end of the argument list). -/
theorem dispatched_nonempty {V : Type} (idv : Nat) (t : String) (ps : List String)
    (args : List (JSArg V)) (hne : ps ≠ []) (hnd : ps.Nodup) (hty : ("type") ∉ ps) :
    dispatchedAction { id := idv, type := t, params := ps } args =
      (("type"), JSArg.str t) :: ps.enum.map (fun pi => (pi.2, args.getD pi.1 JSArg.undef)) := by
  have hlen : ps.length > 0 := List.length_pos.mpr hne
  unfold dispatchedAction
  simp only [if_pos hlen]
  rw [objAssignAll_append _ [] (by rw [keys_enum_map]; exact hnd) (by simp)]
  rw [List.nil_append]
  rw [objAssignAll_append _ _ (by rw [keys_enum_map]; exact hnd) ?_]
  · simp
  · rw [keys_enum_map]
    intro k hk
    simp only [List.map_cons, List.map_nil, List.mem_singleton]
    intro he
    exact hty (he ▸ hk)

/-- C3: for every action kind and non-empty list of pairwise distinct
parameter names p0..pn (none of them the reserved key type), invoking the
bound callable with positional arguments a0..an of matching arity
dispatches exactly the record with the type entry followed by the entries
p_i mapped to a_i, with no extra and no missing fields. -/
theorem dispatchedAction_shape_exact {V : Type} (idv : Nat) (t : String) (ps : List String)
    (args : List (JSArg V)) (hne : ps ≠ []) (hnd : ps.Nodup) (hty : ("type") ∉ ps)
    (hlen : args.length = ps.length) :
    dispatchedAction { id := idv, type := t, params := ps } args =
      (("type"), JSArg.str t) :: ps.zip args := by
  rw [dispatched_nonempty idv t ps args hne hnd hty]
  congr 1
  apply List.ext_getElem
  · simp [hlen]
  · intro i h1 h2
    simp only [List.length_map, List.enum_length] at h1
    have hia : i < args.length := by omega
    simp [List.getElem_enum, List.getElem_zip, List.getElem?_eq_getElem hia]

/-- Witness for C3 at the CHANGE_REGION callable with a concrete region
payload. -/
theorem dispatchedAction_shape_exact_witness :
    dispatchedAction { id := 0, type := "CHANGE_REGION", params := ["region"] }
        [JSArg.val (5 : Nat)] =
      [(("type"), JSArg.str "CHANGE_REGION"), (("region"), JSArg.val 5)] :=
  dispatchedAction_shape_exact 0 "CHANGE_REGION" ["region"] [JSArg.val 5]
    (by decide) (by decide) (by decide) (by decide)

/-- C6: invoking a bound callable with fewer positional arguments than
declared parameter names raises no error; the action is still dispatched,
with each supplied argument under its name and every missing parameter
resolving to undefined in the action record. -/
theorem dispatchedAction_missing_args_undef {V : Type} (idv : Nat) (t : String)
    (ps : List String) (args : List (JSArg V)) (hne : ps ≠ []) (hnd : ps.Nodup)
    (hty : ("type") ∉ ps) (hlt : args.length < ps.length) :
    dispatchedAction { id := idv, type := t, params := ps } args =
      (("type"), JSArg.str t) ::
        ((ps.take args.length).zip args ++
          (ps.drop args.length).map (fun p => (p, JSArg.undef))) := by
  rw [dispatched_nonempty idv t ps args hne hnd hty]
  congr 1
  apply List.ext_getElem
  · simp
    omega
  · intro i h1 h2
    simp only [List.length_map, List.enum_length] at h1
    by_cases hia : i < args.length
    · rw [List.getElem_append_left (by simp; omega)]
      simp [List.getElem_enum, List.getElem_zip, List.getElem?_eq_getElem hia,
        List.getElem_take]
    · have hge : args.length ≤ i := by omega
      rw [List.getElem_append_right (by simp; omega)]
      have hz : ((ps.take args.length).zip args).length = args.length := by
        simp
        omega
      simp only [hz, List.getElem_map, List.getElem_drop, List.getElem_enum]
      have : args.length + (i - args.length) = i := by omega
      simp [this, List.getElem?_eq_none hge]

/-- Witness for C6: the two-parameter BEGIN_BOX_TRANSFORM callable invoked
with a single argument dispatches the record with the second parameter
undefined. -/
theorem dispatchedAction_missing_args_undef_witness :
    dispatchedAction { id := 0, type := "BEGIN_BOX_TRANSFORM", params := ["box", "directions"] }
        [JSArg.val (7 : Nat)] =
      [(("type"), JSArg.str "BEGIN_BOX_TRANSFORM"), (("box"), JSArg.val 7),
        (("directions"), JSArg.undef)] :=
  dispatchedAction_missing_args_undef 0 "BEGIN_BOX_TRANSFORM" ["box", "directions"]
    [JSArg.val 7] (by decide) (by decide) (by decide) (by decide)

/-- C4: a callable bound with an empty parameter-name list spreads its
first call-time record argument into the action body: the dispatched
record is the type entry followed by the fields of the argument (for a
record with pairwise distinct field names none of which is the reserved
key type). -/
theorem dispatchedAction_zero_param_spread {V : Type} (idv : Nat) (t : String)
    (fields : List (String × V)) (rest : List (JSArg V))
    (hnd : (fields.map Prod.fst).Nodup) (hty : ("type") ∉ fields.map Prod.fst) :
    dispatchedAction { id := idv, type := t, params := [] } (JSArg.obj fields :: rest) =
      (("type"), JSArg.str t) :: fields.map (fun kv => (kv.1, JSArg.val kv.2)) := by
  unfold dispatchedAction
  simp only [List.length_nil, gt_iff_lt, lt_self_iff_false, if_false, List.getD_cons_zero,
    spreadFields]
  have hkeys : (fields.map (fun kv => (kv.1, JSArg.val (V := V) kv.2))).map Prod.fst =
      fields.map Prod.fst := by
    rw [List.map_map]
    rfl
  rw [objAssignAll_append _ _ (by rw [hkeys]; exact hnd) ?_]
  · simp
  · rw [hkeys]
    intro k hk
    simp only [List.map_cons, List.map_nil, List.mem_singleton]
    intro he
    exact hty (he ▸ hk)

/-- Witness for C4: the RESTORE_HISTORY callable invoked with the record
containing h mapped to 1. -/
theorem dispatchedAction_zero_param_spread_witness :
    dispatchedAction { id := 0, type := "RESTORE_HISTORY", params := [] }
        [JSArg.obj [(("h"), (1 : Nat))]] =
      [(("type"), JSArg.str "RESTORE_HISTORY"), (("h"), JSArg.val 1)] :=
  dispatchedAction_zero_param_spread 0 "RESTORE_HISTORY" [(("h"), 1)] []
    (by decide) (by decide)

/-- Unfolding of the binder on a cache hit. -/
theorem action_of_found {st : ActionCache} {t : String} {ps : List String}
    {kv : String × ActionFn}
    (h : st.table.find? (fun e => e.1 == fnKey t ps) = some kv) :
    action st t ps = (kv.2, st) := by
  simp only [action, h]

/-- Unfolding of the binder on a cache miss. -/
theorem action_of_not_found {st : ActionCache} {t : String} {ps : List String}
    (h : st.table.find? (fun e => e.1 == fnKey t ps) = none) :
    action st t ps =
      ({ id := st.nextId, type := t, params := ps },
        { table :=
            st.table ++ [(fnKey t ps, { id := st.nextId, type := t, params := ps })],
          nextId := st.nextId + 1 }) := by
  simp only [action, h]

/-- A key already bound in the cache stays bound to the same callable
after any further binder call. -/
theorem find?_action_preserved (st : ActionCache) (t : String) (ps : List String)
    {k : String} {kv : String × ActionFn}
    (h : st.table.find? (fun e => e.1 == k) = some kv) :
    (action st t ps).2.table.find? (fun e => e.1 == k) = some kv := by
  cases hf : st.table.find? (fun e => e.1 == fnKey t ps) with
  | some e => rw [action_of_found hf]; exact h
  | none => rw [action_of_not_found hf]; simp [List.find?_append, h]

/-- Immediately after a binder call, the key of that call is bound to the
returned callable. -/
theorem action_lookup_self (st : ActionCache) (t : String) (ps : List String) :
    (action st t ps).2.table.find? (fun e => e.1 == fnKey t ps) =
      some (fnKey t ps, (action st t ps).1) := by
  cases hf : st.table.find? (fun e => e.1 == fnKey t ps) with
  | some kv =>
    obtain ⟨k1, f⟩ := kv
    have hp : k1 = fnKey t ps := by simpa using List.find?_some hf
    rw [action_of_found hf]
    subst hp
    exact hf
  | none =>
    rw [action_of_not_found hf]
    simp [List.find?_append, hf, List.find?]

/-- A bound key survives any further sequence of binder calls. -/
theorem runCalls_find?_preserved :
    ∀ (calls : List (String × List String)) (st : ActionCache) {k : String}
      {kv : String × ActionFn},
      st.table.find? (fun e => e.1 == k) = some kv →
      (runCalls st calls).table.find? (fun e => e.1 == k) = some kv := by
  intro calls
  induction calls with
  | nil => intro st k kv h; simpa [runCalls] using h
  | cons c rest ih =>
    intro st k kv h
    simp only [runCalls, List.foldl_cons]
    exact ih _ (find?_action_preserved st c.1 c.2 h)

/-- C2: for a fixed dispatch sink, once the binder has been called with an
action kind and a parameter-name list, every later call with the same kind
and the same list (after any interleaved sequence of other binder calls)
returns the identical callable. -/
theorem action_stable_across_repeated_calls (st : ActionCache) (t : String)
    (ps : List String) (calls : List (String × List String)) :
    (action (runCalls (action st t ps).2 calls) t ps).1 = (action st t ps).1 := by
  have h2 := runCalls_find?_preserved calls _ (action_lookup_self st t ps)
  rw [action_of_found h2]

/-- C5 counterexample: the cache key joins the parameter names with
commas, so the distinct parameter-name lists containing the single name
a,b and containing the two names a and b collide on the key X(a,b); the
two binder calls return the identical callable even though their
parameter-name lists differ. -/
theorem action_memoized_key_collision :
    ((["a,b"] : List String) ≠ ["a", "b"]) ∧
      (action (action ActionCache.empty "X" ["a,b"]).2 "X" ["a", "b"]).1 =
        (action ActionCache.empty "X" ["a,b"]).1 := by
  exact ⟨by decide, by rfl⟩

/-- C5 amended: two binder calls whose cache keys, the action kind
followed by the comma-joined parameter names in parentheses, differ return
distinct callables, for every sane cache; in particular the calls with
params a and params b return different callables. -/
theorem action_distinct_of_fnKey_ne (st : ActionCache) (t1 : String) (ps1 : List String)
    (t2 : String) (ps2 : List String) (hwf : CacheWF st)
    (hk : fnKey t1 ps1 ≠ fnKey t2 ps2) :
    (action (action st t1 ps1).2 t2 ps2).1 ≠ (action st t1 ps1).1 := by
  obtain ⟨hlt, hnd⟩ := hwf
  cases h1 : st.table.find? (fun e => e.1 == fnKey t1 ps1) with
  | some kv1 =>
    rw [action_of_found h1]
    cases h2 : st.table.find? (fun e => e.1 == fnKey t2 ps2) with
    | some kv2 =>
      rw [action_of_found h2]
      intro heq
      have hm1 := List.mem_of_find?_eq_some h1
      have hm2 := List.mem_of_find?_eq_some h2
      have hp1 : kv1.1 = fnKey t1 ps1 := by simpa using List.find?_some h1
      have hp2 : kv2.1 = fnKey t2 ps2 := by simpa using List.find?_some h2
      have hkv : kv2 = kv1 :=
        List.inj_on_of_nodup_map hnd hm2 hm1 (congrArg ActionFn.id heq)
      apply hk
      rw [← hp1, ← hp2, hkv]
    | none =>
      rw [action_of_not_found h2]
      intro heq
      have hid : st.nextId = kv1.2.id := congrArg ActionFn.id heq
      have := hlt kv1 (List.mem_of_find?_eq_some h1)
      omega
  | none =>
    rw [action_of_not_found h1]
    have hsuffix :
        [(fnKey t1 ps1,
            ({ id := st.nextId, type := t1, params := ps1 } : ActionFn))].find?
          (fun e => e.1 == fnKey t2 ps2) = none := by
      have hbeq : (fnKey t1 ps1 == fnKey t2 ps2) = false := beq_eq_false_iff_ne.mpr hk
      simp [List.find?, hbeq]
    cases h2 : st.table.find? (fun e => e.1 == fnKey t2 ps2) with
    | some kv2 =>
      have h2' :
          (st.table ++
              [(fnKey t1 ps1,
                ({ id := st.nextId, type := t1, params := ps1 } : ActionFn))]).find?
            (fun e => e.1 == fnKey t2 ps2) = some kv2 := by
        simp [List.find?_append, h2]
      rw [action_of_found h2']
      intro heq
      have := hlt kv2 (List.mem_of_find?_eq_some h2)
      rw [congrArg ActionFn.id heq] at this
      simp at this
    | none =>
      have h2' :
          (st.table ++
              [(fnKey t1 ps1,
                ({ id := st.nextId, type := t1, params := ps1 } : ActionFn))]).find?
            (fun e => e.1 == fnKey t2 ps2) = none := by
        simp [List.find?_append, h2, hsuffix]
      rw [action_of_not_found h2']
      intro heq
      have := congrArg ActionFn.id heq
      simp at this

/-- Witness for the amended C5 at the empty cache with the calls bind X a
and bind X b. -/
theorem action_distinct_of_fnKey_ne_witness :
    (action (action ActionCache.empty "X" ["a"]).2 "X" ["b"]).1 ≠
      (action ActionCache.empty "X" ["a"]).1 :=
  action_distinct_of_fnKey_ne ActionCache.empty "X" ["a"] "X" ["b"]
    ⟨fun kv h => by simp [ActionCache.empty] at h, by simp [ActionCache.empty]⟩
    (by decide)

/-- With pairwise distinct keyframe keys, the lookup of an authored key
finds exactly its entry. -/
theorem find?_keyframe {kfs : Keyframes} {t : ℚ} {rs : List Region}
    (hnd : (kfs.map Prod.fst).Nodup) (hmem : (t, rs) ∈ kfs) :
    kfs.find? (fun kv => kv.1 == t) = some (t, rs) := by
  induction kfs with
  | nil => cases hmem
  | cons kv rest ih =>
    simp only [List.map_cons, List.nodup_cons] at hnd
    rcases List.mem_cons.mp hmem with h | h
    · rw [← h]
      simp [List.find?]
    · have hkt : kv.1 ≠ t := by
        intro he
        exact hnd.1 (he ▸ List.mem_map_of_mem Prod.fst h)
      rw [List.find?_cons_of_neg _ (by simp [hkt])]
      exact ih hnd.2 h

/-- C8: whenever the current video time exactly equals an authored
keyframe key, the implied-region computation returns that keyframe region
set unmodified. -/
theorem impliedRegions_exact_passthrough (kfs : Keyframes) (t : ℚ) (rs : List Region)
    (hnd : (kfs.map Prod.fst).Nodup) (hmem : (t, rs) ∈ kfs) :
    impliedRegions kfs t = rs := by
  unfold impliedRegions
  rw [find?_keyframe hnd hmem]

/-- Witness for C8 at the keyframes 0 and 1000: the implied set at time 0
is exactly the region set of keyframe 0, and at time 1000 exactly that of
keyframe 1000. -/
theorem impliedRegions_exact_passthrough_witness :
    impliedRegions [((0 : ℚ), [sampleRegion0]), ((1000 : ℚ), [sampleRegion1])] 0 =
        [sampleRegion0] ∧
      impliedRegions [((0 : ℚ), [sampleRegion0]), ((1000 : ℚ), [sampleRegion1])] 1000 =
        [sampleRegion1] :=
  ⟨impliedRegions_exact_passthrough _ _ _ (by decide) (by decide),
    impliedRegions_exact_passthrough _ _ _ (by decide) (by decide)⟩

/-- C1: in image annotation mode with a selectedImage key matching no
entry of images, the regions prop of the canvas does not degrade to the
empty set: evaluating activeImage.regions at source line 119 reads a
property of undefined and the computation faults with a TypeError. -/
theorem regionsProp_faults_on_unresolved_selection :
    regionsProp unresolvedImageState = Except.error JSError.typeError := by rfl

/-- C7 counterexample: with the persisted debug flag truthy, the rendered
DebugBox receives the boolean debugModeOn as its state prop (source line
238 passes state={debugModeOn}), not the live state. -/
theorem debugBox_state_prop_is_flag_not_state :
    debugBoxItem envDebugOn sampleVideoState ≠
        some { stateValue := DebugStateProp.fromState sampleVideoState,
               lastAction := sampleVideoState.lastAction } ∧
      debugBoxItem envDebugOn sampleVideoState =
        some { stateValue := DebugStateProp.fromBool true,
               lastAction := sampleVideoState.lastAction } :=
  ⟨by decide, by decide⟩

/-- C7 amended: whenever the persisted local flag $ANNOTATE_DEBUG_MODE is
truthy (and a state is present), the diagnostic side panel is rendered and
receives the boolean debug indicator as its state value together with the
live lastAction; when the flag is absent or false, the panel is
disabled. -/
theorem debugBoxItem_flag_contract (env : Env) (s : MainState) :
    (localStorageTruthy env.annotateDebugMode = true →
        debugBoxItem env s =
          some { stateValue := DebugStateProp.fromBool true, lastAction := s.lastAction }) ∧
      (localStorageTruthy env.annotateDebugMode = false → debugBoxItem env s = none) := by
  constructor <;> intro h <;> simp [debugBoxItem, debugModeOn, h]

/-- Witness for the amended C7: with the flag set the panel is rendered
with the boolean and the last action; with the flag absent it is
disabled. -/
theorem debugBoxItem_flag_contract_witness :
    debugBoxItem envDebugOn sampleVideoState =
        some { stateValue := DebugStateProp.fromBool true,
               lastAction := sampleVideoState.lastAction } ∧
      debugBoxItem envDebugOff sampleVideoState = none :=
  ⟨(debugBoxItem_flag_contract envDebugOn sampleVideoState).1 (by decide),
    (debugBoxItem_flag_contract envDebugOff sampleVideoState).2 (by decide)⟩

/-- C9: for every pointer-down or pointer-over event, the refocus handler
changes nothing when no surface container is mounted; changes nothing when
the surface already contains the currently focused element; focuses the
surface container and then the event target when the target is inside the
surface; and changes nothing in all other cases. -/
theorem refocusOnMouseEvent_contract (env : FocusEnv) (target : Nat) :
    (env.container = none → refocusOnMouseEvent env target = []) ∧
      (∀ c, env.container = some c → surfaceContainsActive env = true →
        refocusOnMouseEvent env target = []) ∧
      (∀ c, env.container = some c → surfaceContainsActive env = false →
        env.contains c target = true → refocusOnMouseEvent env target = [c, target]) ∧
      (∀ c, env.container = some c → surfaceContainsActive env = false →
        env.contains c target = false → refocusOnMouseEvent env target = []) := by
  refine ⟨?_, ?_, ?_, ?_⟩
  · intro h
    simp [refocusOnMouseEvent, h]
  · intro c hc h
    simp [refocusOnMouseEvent, hc, h]
  · intro c hc h ht
    simp [refocusOnMouseEvent, hc, h, ht]
  · intro c hc h ht
    simp [refocusOnMouseEvent, hc, h, ht]

/-- Witness for C9: in the concrete DOM the focused element is outside the
surface and the event target is inside, so the handler focuses the
container and then the target. -/
theorem refocusOnMouseEvent_contract_witness :
    refocusOnMouseEvent sampleFocusEnv 3 = [0, 3] :=
  (refocusOnMouseEvent_contract sampleFocusEnv 3).2.2.1 0 (by decide) (by decide) (by decide)

/-- C10: for every environment and state, the render result of MainLayout
is the Workspace based layout produced by the first return statement
whenever building the canvas element does not fault; the
Fullscreen/HotkeyDiv layout of the second return statement is unreachable
and never part of the rendered output. -/
theorem mainLayoutRender_first_return (env : Env) (s : MainState) :
    (∃ cv, mainLayoutRender env s =
        Except.ok (some (Rendered.workspace (workspaceLayout env s cv)))) ∨
      (∃ e, mainLayoutRender env s = Except.error e) := by
  unfold mainLayoutRender
  cases h : canvasProps s with
  | error e =>
    right
    exact ⟨e, by simp [h, Except.map]⟩
  | ok cv =>
    left
    exact ⟨cv, by simp [h, Except.map, mainLayoutReturns]⟩
